import Mathlib

/-!
Verification of the SD-card informer of Prusa-Link
(`src/old_buddy/informers/sd_card.py`).

The development shallowly embeds the module's data model and operations:

* `InternalFileTree` — the file-tree class, with its `children_dict`
  (an insertion-ordered dict, modelled as a list keyed by the child's
  `path` segment, exactly how `add_child` keys it) and its
  `descendants_set` (a Python `set`; modelled as a duplicate-free-by-
  Python-equality list, see `pySetAdd`/`pySetDiff`).
* Python set membership uses `__eq__` (the hash only buckets).
  `InternalFileTree` overrides `__hash__` but NOT `__eq__`, so equality
  between nodes is default object identity; we model identity by giving
  every constructed node a fresh `id : Nat` and taking `pyEq` to compare
  ids.  `fingerprint` is the tuple hashed by `__hash__`.
* `SDCard` — the mutable fields of the `SDCard` class that the state
  machine reads and writes (`sd_state`, `expecting_insertion`, and
  `file_tree`, which `__init__` never assigns, hence `Option`, `none`
  meaning "attribute not yet set"; reading it while `none` raises
  `AttributeError`).
* Each method (`child_from_path`, `diff`, `to_api_file_tree`,
  `construct_file_tree`, `_update`, `sd_inserted`, `sd_state_changed`,
  `decide_presence`) becomes a function; Python exceptions become
  `Except PyErr`.  Signal emissions (`updated_signal`, `inserted_signal`,
  `ejected_signal`) become an ordered `List Event`; `log.debug` lines of
  `diff` become the `logged_*` fields of `DiffResult` since logging is
  the only output of `diff`.
* The serial queue is external: a cycle's inputs are the captured listing
  lines and a stream of probe outcomes (`ProbeResult`); every
  `wait_for_instruction` call is counted as one blocking wait.
-/

namespace OldBuddy

/-- `FileType` from `old_buddy.structures.model_classes` (not under `src/`);
only the three member names used by `sd_card.py` matter here.  Every node
construction in `sd_card.py` passes an explicit `file_type`, so the field is
total in built trees. -/
inductive FileType where
  | DIR
  | FILE
  | MOUNT
deriving DecidableEq, Repr

/-- `member.name` of the Python enum. -/
def FileType.name : FileType → String
  | .DIR => "DIR"
  | .FILE => "FILE"
  | .MOUNT => "MOUNT"

/-- `SDState` enum (`sd_card.py`). -/
inductive SDState where
  | PRESENT
  | INITIALISING
  | UNSURE
  | ABSENT
deriving DecidableEq, Repr

/-- Python exceptions that the embedded code can raise. -/
inductive PyErr where
  | attributeError
  | valueError
deriving DecidableEq, Repr

/-- The data of one node as seen by the `descendants_set`: the attributes
read by `__hash__` (the metadata fingerprint), the object identity `id`
(Python's default `__eq__`), and `full_path` (read by `diff`). -/
structure DescEntry where
  id : Nat
  type : FileType
  ro : Option Bool
  size : Option Int
  m_date : Option Int
  m_time : Option Int
  full_path : String
deriving DecidableEq, Repr

/-- The tuple hashed by `InternalFileTree.__hash__`:
`(self.type, self.ro, self.size, self.m_date, self.m_time)`. -/
def fingerprint (e : DescEntry) :
    FileType × Option Bool × Option Int × Option Int × Option Int :=
  (e.type, e.ro, e.size, e.m_date, e.m_time)

/-- Python `a == b` on `InternalFileTree` nodes: the class defines
`__hash__` but not `__eq__`, so the default identity comparison applies. -/
def pyEq (a b : DescEntry) : Bool := a.id = b.id

/-- Python `set.add`: inserts unless an `__eq__`-equal element is present. -/
def pySetAdd (xs : List DescEntry) (e : DescEntry) : List DescEntry :=
  if xs.any (pyEq e) then xs else xs ++ [e]

/-- Python `set.difference`: keeps the elements of `xs` that are
`__eq__`-equal to no element of `ys`. -/
def pySetDiff (xs ys : List DescEntry) : List DescEntry :=
  xs.filter (fun x => !(ys.any (pyEq x)))

/-- `str.strip("/")`: drop `/` characters from both ends. -/
def pyStripSlashes (s : String) : String :=
  String.mk (((s.toList.dropWhile (· = '/')).reverse.dropWhile (· = '/')).reverse)

/-- Helper for `split(sep, 1)`: the part before the first `sep` and,
when `sep` occurs, the remainder after it. -/
def splitOnceChars (sep : Char) : List Char → List Char × Option (List Char)
  | [] => ([], none)
  | c :: rest =>
    if c = sep then ([], some rest)
    else
      match splitOnceChars sep rest with
      | (a, b) => (c :: a, b)

/-- Python `s.split("/", 1)` wrapped for strings. -/
def pySplitFirst (s : String) (sep : Char) : String × Option String :=
  match splitOnceChars sep s.toList with
  | (a, none) => (String.mk a, none)
  | (a, some b) => (String.mk a, some (String.mk b))

/-- Python `s.split(" ")` (split on every occurrence, keeping empties). -/
def splitAllChars (sep : Char) : List Char → List Char → List (List Char)
  | [], acc => [acc.reverse]
  | c :: rest, acc =>
    if c = sep then acc.reverse :: splitAllChars sep rest []
    else splitAllChars sep rest (c :: acc)

def pySplitAll (s : String) (sep : Char) : List String :=
  (splitAllChars sep s.toList []).map String.mk

/-- Decimal digit value. -/
def digitVal (c : Char) : Option Nat :=
  if '0' ≤ c ∧ c ≤ '9' then some (c.toNat - '0'.toNat) else none

def parseNatChars (cs : List Char) : Option Nat :=
  if cs.isEmpty then none
  else
    cs.foldl
      (fun acc c =>
        match acc, digitVal c with
        | some n, some d => some (n * 10 + d)
        | _, _ => none)
      (some 0)

/-- Python `int(s)` on an optionally-signed decimal string (the forms the
printer's listing produces); anything else raises `ValueError`. -/
def pyToInt (s : String) : Option Int :=
  match s.toList with
  | '-' :: rest => (parseNatChars rest).map (fun n => -(n : Int))
  | cs => (parseNatChars cs).map (fun n => (n : Int))

/-- Python `str.lower()` (ASCII case suffices for G-code listings). -/
def pyLower (s : String) : String :=
  String.mk (s.toList.map Char.toLower)

/-- `InternalFileTree`: kind, `path` segment, metadata, the `full_path`
maintained by the parent back-reference (recomputed on attach), the
`descendants_set` and the `children_dict`.  The dict is keyed by the
child's `path` (that is the key `add_child` uses), so the list of children
suffices. -/
inductive InternalFileTree where
  | node (id : Nat) (type : FileType) (path : String) (ro : Option Bool)
      (size : Option Int) (m_date : Option Int) (m_time : Option Int)
      (full_path : String) (descendants_set : List DescEntry)
      (children_dict : List InternalFileTree)
deriving Repr

namespace InternalFileTree

def nid : InternalFileTree → Nat
  | node i _ _ _ _ _ _ _ _ _ => i

def type : InternalFileTree → FileType
  | node _ ty _ _ _ _ _ _ _ _ => ty

def path : InternalFileTree → String
  | node _ _ p _ _ _ _ _ _ _ => p

def ro : InternalFileTree → Option Bool
  | node _ _ _ r _ _ _ _ _ _ => r

def size : InternalFileTree → Option Int
  | node _ _ _ _ s _ _ _ _ _ => s

def m_date : InternalFileTree → Option Int
  | node _ _ _ _ _ d _ _ _ _ => d

def m_time : InternalFileTree → Option Int
  | node _ _ _ _ _ _ t _ _ _ => t

def full_path : InternalFileTree → String
  | node _ _ _ _ _ _ _ fp _ _ => fp

def descendants_set : InternalFileTree → List DescEntry
  | node _ _ _ _ _ _ _ _ ds _ => ds

def children_dict : InternalFileTree → List InternalFileTree
  | node _ _ _ _ _ _ _ _ _ ch => ch

/-- `__bool__`: `bool(self.descendants_set)`. -/
def nonempty (t : InternalFileTree) : Bool :=
  !t.descendants_set.isEmpty

/-- `path in children_dict`. -/
def dictContains (ch : List InternalFileTree) (key : String) : Bool :=
  ch.any (fun c => c.path = key)

/-- `children_dict[path]`. -/
def dictGet (ch : List InternalFileTree) (key : String) :
    Option InternalFileTree :=
  ch.find? (fun c => c.path = key)

/-- `children_dict[key] = child` on an insertion-ordered dict. -/
def dictInsert (ch : List InternalFileTree) (key : String)
    (child : InternalFileTree) : List InternalFileTree :=
  if dictContains ch key then
    ch.map (fun c => if c.path = key then child else c)
  else ch ++ [child]

/-- `add_child`: store under `child.path`; attaching sets the parent
back-reference, which only serves to give the child its `full_path`
(already baked into `child` here). -/
def add_child_node (t : InternalFileTree) (child : InternalFileTree) :
    InternalFileTree :=
  match t with
  | node i ty p r s d ti fp ds ch =>
    node i ty p r s d ti fp ds (dictInsert ch child.path child)

/-- `self.descendants_set.add(added_child)`. -/
def add_descendant (t : InternalFileTree) (e : DescEntry) :
    InternalFileTree :=
  match t with
  | node i ty p r s d ti fp ds ch =>
    node i ty p r s d ti fp (pySetAdd ds e) ch

end InternalFileTree

/-- `get_full_path` walks parent references collecting `path` segments of
every node that has a parent, so a child attached under a node whose own
full path corresponds to prefix `pre` (`""` for the root) gets
`pre ++ "/" ++ segment`. -/
def childFull (pre seg : String) : String := pre ++ "/" ++ seg

def mkFileNode (id : Nat) (seg : String) (size : Int) (full : String) :
    InternalFileTree :=
  .node id FileType.FILE seg none (some size) none none full [] []

def mkDirNode (id : Nat) (seg : String) (full : String) : InternalFileTree :=
  .node id FileType.DIR seg none none none none full [] []

/-- `InternalFileTree.child_from_path`, fuelled (the Python recursion
shortens the line by at least one character per level, so
`line.length + 1` fuel never runs out).  `pre` is the path prefix of the
node the method is invoked on (`""` when invoked on the root, the only
way `construct_file_tree` calls it); `fresh` supplies object identities
for the nodes the call allocates.  Returns the updated node, the
descendants-set entry of `added_child`, and the next fresh id. -/
def childFromPathFuel :
    Nat → InternalFileTree → String → String → Nat →
    Except PyErr (InternalFileTree × DescEntry × Nat)
  | 0, _, _, _, _ => .error PyErr.valueError
  | Nat.succ fuel, t, pre, line, fresh =>
    let clean_line := pyStripSlashes line
    match pySplitFirst clean_line '/' with
    | (seg, some rest) =>
      -- recursive case: ensure a DIR child exists, then insert deeper
      let (t1, fresh1) :=
        if InternalFileTree.dictContains t.children_dict seg then (t, fresh)
        else
          (t.add_child_node (mkDirNode fresh seg (childFull pre seg)),
           fresh + 1)
      match InternalFileTree.dictGet t1.children_dict seg with
      | none => .error PyErr.valueError
      | some child =>
        match childFromPathFuel fuel child (childFull pre seg) rest fresh1 with
        | .error e => .error e
        | .ok (child', entry, fresh2) =>
          let t2 := t1.add_child_node child'
          .ok (t2.add_descendant entry, entry, fresh2)
    | (single, none) =>
      -- base case: `path, str_size = parts[0].split(" ")` then `int`
      match pySplitAll single ' ' with
      | [seg, sizeStr] =>
        match pyToInt sizeStr with
        | some size =>
          let full := childFull pre seg
          let entry : DescEntry :=
            { id := fresh, type := FileType.FILE, ro := none,
              size := some size, m_date := none, m_time := none,
              full_path := full }
          let t1 := t.add_child_node (mkFileNode fresh seg size full)
          .ok (t1.add_descendant entry, entry, fresh + 1)
        | none => .error PyErr.valueError
      | _ => .error PyErr.valueError

/-- `child_from_path` as called on the root of a tree. -/
def InternalFileTree.child_from_path (t : InternalFileTree) (line : String)
    (fresh : Nat) : Except PyErr (InternalFileTree × DescEntry × Nat) :=
  childFromPathFuel (line.toList.length + 1) t "" line fresh

/-- What the `log.debug` calls of `diff` report, together with the
intermediate sets the method computes. -/
structure DiffResult where
  removed_files : List DescEntry
  new_files : List DescEntry
  changed_file_paths : List String
  logged_removed : List String
  logged_changed : List String
  logged_created : List String
deriving DecidableEq, Repr

/-- `InternalFileTree.diff`, transcribed verbatim: NOTE that the source
assigns `new_files` the very same expression as `removed_files`
(`self.descendants_set.difference(other_tree.descendants_set)` both
times), and that the set difference compares by object identity. -/
def InternalFileTree.diff (self other_tree : InternalFileTree) : DiffResult :=
  let removed_files :=
    pySetDiff self.descendants_set other_tree.descendants_set
  let new_files :=
    pySetDiff self.descendants_set other_tree.descendants_set
  let removed_paths := removed_files.map (fun f => f.full_path)
  let new_paths := new_files.map (fun f => f.full_path)
  let changed_file_paths := removed_paths.filter (fun p => new_paths.contains p)
  { removed_files := removed_files
    new_files := new_files
    changed_file_paths := changed_file_paths
    logged_removed :=
      (removed_files.filter
        (fun f => !(changed_file_paths.contains f.full_path))).map
        (fun f => f.full_path)
    logged_changed :=
      (removed_files.filter
        (fun f => changed_file_paths.contains f.full_path)).map
        (fun f => f.full_path)
    logged_created :=
      (new_files.filter
        (fun f => !(changed_file_paths.contains f.full_path))).map
        (fun f => f.full_path) }

/-- The API `FileTree` model class (`old_buddy.structures.model_classes`,
not under `src/`): a plain attribute holder; its shape is read off the
assignments `to_api_file_tree` performs. -/
inductive ApiFileTree where
  | mk (type : String) (path : String) (ro : Option Bool) (size : Option Int)
      (m_date : Option Int) (m_time : Option Int)
      (children : Option (List ApiFileTree))
deriving Repr

def ApiFileTree.children : ApiFileTree → Option (List ApiFileTree)
  | .mk _ _ _ _ _ _ c => c

def ApiFileTree.type : ApiFileTree → String
  | .mk t _ _ _ _ _ _ => t

/-- `to_api_file_tree`: convert recursively; an empty children list is
replaced by `None`. -/
def InternalFileTree.to_api_file_tree : InternalFileTree → ApiFileTree
  | .node _ ty p r s d ti _ _ ch =>
    let kids := ch.attach.map (fun c => c.1.to_api_file_tree)
    ApiFileTree.mk ty.name p r s d ti (if kids.isEmpty then none else some kids)
decreasing_by
  have := List.sizeOf_lt_of_mem c.2
  simp only [InternalFileTree.node.sizeOf_spec]
  omega

/-- Outcome of the `M21` presence probe's instruction, as inspected by
`decide_presence`: either `is_confirmed()` is false, or the instruction
resolved and `match(SD_PRESENT_REGEX).groups()[0]` is (not) `None` —
`resolved true` means the response carried the presence indicator. -/
inductive ProbeResult where
  | unresolved
  | resolved (sdPresent : Bool)
deriving DecidableEq, Repr

/-- The signal emissions of `SDCard`, in emission order:
`updated_signal.send(self, tree=…, sd_state=…)`,
`inserted_signal.send(self, root="/", files=…)`,
`ejected_signal.send(self, root="/")`. -/
inductive Event where
  | updated (tree : ApiFileTree) (sd_state : SDState)
  | inserted (root : String) (files : ApiFileTree)
  | ejected (root : String)
deriving Repr

def isInsertedEvent : Event → Bool
  | .inserted _ _ => true
  | _ => false

def isEjectedEvent : Event → Bool
  | .ejected _ => true
  | _ => false

/-- The mutable fields of the `SDCard` class touched by the state
machine.  `__init__` sets `expecting_insertion = False` and
`sd_state = SDState.UNSURE`; it never assigns `file_tree`, which is first
assigned at the end of `_update`, so `none` models the attribute not
existing yet (reading it then raises `AttributeError`). -/
structure SDCard where
  sd_state : SDState
  expecting_insertion : Bool
  file_tree : Option InternalFileTree

/-- The `SDCard` fields right after `__init__`. -/
def SDCard.initial : SDCard :=
  { sd_state := SDState.UNSURE, expecting_insertion := false,
    file_tree := none }

/-- `sd_state_changed(new_state)`: emit on the two special edges, then
assign `self.sd_state = new_state`.  On the INITIALISING→PRESENT edge the
method reads `self.file_tree`; when that attribute was never assigned the
read raises `AttributeError` (and the state assignment below it is never
reached). -/
def sd_state_changed (c : SDCard) (new_state : SDState) :
    Except PyErr (SDCard × List Event) :=
  if c.sd_state = SDState.INITIALISING ∧ new_state = SDState.PRESENT then
    match c.file_tree with
    | none => .error PyErr.attributeError
    | some t =>
      .ok ({ c with sd_state := new_state },
           [Event.inserted "/" t.to_api_file_tree])
  else if c.sd_state = SDState.PRESENT ∧
      (new_state = SDState.ABSENT ∨ new_state = SDState.INITIALISING) then
    .ok ({ c with sd_state := new_state }, [Event.ejected "/"])
  else
    .ok ({ c with sd_state := new_state }, [])

/-- `sd_inserted()`: a notification while `expecting_insertion` only
clears the flag; otherwise it forces INITIALISING. -/
def sd_inserted (c : SDCard) : Except PyErr (SDCard × List Event) :=
  if c.expecting_insertion then
    .ok ({ c with expecting_insertion := false }, [])
  else
    sd_state_changed c SDState.INITIALISING

/-- `decide_presence()`: set `expecting_insertion`, enqueue `M21`, block on
`wait_for_instruction` (the probe outcome is the `probe` argument), clear
`expecting_insertion`, then act on the outcome.  The one blocking wait of
this method is counted by its caller. -/
def decide_presence (c : SDCard) (probe : ProbeResult) :
    Except PyErr (SDCard × List Event) :=
  let c1 : SDCard := { c with expecting_insertion := false }
  match probe with
  | ProbeResult.unresolved => .ok (c1, [])
  | ProbeResult.resolved present =>
    if present then
      if c1.sd_state ≠ SDState.PRESENT then
        sd_state_changed c1 SDState.PRESENT
      else .ok (c1, [])
    else
      sd_state_changed c1 SDState.ABSENT

/-- Result of `construct_file_tree`: the built tree, whether an `M20`
listing request was enqueued, how many blocking waits happened, and the
next fresh object id. -/
structure BuildOut where
  tree : InternalFileTree
  listing_requested : Bool
  waits : Nat
  fresh : Nat
deriving Repr

/-- The bare root `construct_file_tree` allocates:
`InternalFileTree(path="SD Card", file_type=FileType.MOUNT, ro=True)`;
with no parent its `full_path` is `"/"`. -/
def newMountRoot (fresh : Nat) : InternalFileTree :=
  .node fresh FileType.MOUNT "SD Card" (some true) none none none "/" [] []

/-- The `for match in instruction.captured_matches` loop of
`construct_file_tree`: feed each line into `child_from_path`. -/
def buildLines :
    InternalFileTree → List String → Nat →
    Except PyErr (InternalFileTree × Nat)
  | t, [], fresh => .ok (t, fresh)
  | t, line :: rest, fresh =>
    match t.child_from_path line fresh with
    | .error e => .error e
    | .ok (t', _, fresh') => buildLines t' rest fresh'

/-- `construct_file_tree()`: allocate the MOUNT root; when the state is
ABSENT return it at once (no `M20`, no wait); otherwise enqueue the
listing, block once on `wait_for_instruction`, and insert every captured
line lowercased (`match.string.lower()`). -/
def construct_file_tree (c : SDCard) (lines : List String) (fresh : Nat) :
    Except PyErr BuildOut :=
  let tree := newMountRoot fresh
  if c.sd_state = SDState.ABSENT then
    .ok { tree := tree, listing_requested := false, waits := 0,
          fresh := fresh + 1 }
  else
    match buildLines tree (lines.map pyLower) (fresh + 1) with
    | .error e => .error e
    | .ok (t, fresh') =>
      .ok { tree := t, listing_requested := true, waits := 1,
            fresh := fresh' }

/-- Result of one `_update` cycle. -/
structure CycleResult where
  card : SDCard
  events : List Event
  waits : Nat
  probes_run : Nat
  listing_requested : Bool
  fresh : Nat

/-- The first conditional block of `_update`:
`if self.sd_state in unsure_states:` transition to PRESENT on a non-empty
tree, otherwise run `decide_presence`.  The returned `Nat` is the number
of `M21` probes (= blocking waits) this block performed. -/
def updateBranch1 (c : SDCard) (new_tree : InternalFileTree)
    (probe0 : ProbeResult) : Except PyErr (SDCard × List Event × Nat) :=
  if c.sd_state = SDState.INITIALISING ∨ c.sd_state = SDState.UNSURE then
    if new_tree.nonempty then
      match sd_state_changed c SDState.PRESENT with
      | .error e => .error e
      | .ok (c1, evs) => .ok (c1, evs, 0)
    else
      match decide_presence c probe0 with
      | .error e => .error e
      | .ok (c1, evs) => .ok (c1, evs, 1)
  else .ok (c, [], 0)

/-- The second conditional block of `_update`:
`if not new_tree and self.sd_state == SDState.PRESENT:` — a plain `if`,
not `elif`, re-reading the state the first block may just have changed. -/
def updateBranch2 (c1 : SDCard) (new_tree : InternalFileTree)
    (probeNext : ProbeResult) : Except PyErr (SDCard × List Event × Nat) :=
  if new_tree.nonempty = false ∧ c1.sd_state = SDState.PRESENT then
    match decide_presence c1 probeNext with
    | .error e => .error e
    | .ok (c2, evs) => .ok (c2, evs, 1)
  else .ok (c1, [], 0)

/-- `_update()`:  build the tree; run the two conditional blocks (the
ABSENT-with-files branch only logs a sanity error and is otherwise
effect-free); finally store the new tree in `self.file_tree` and emit the
unconditional updated signal.  `probe n` is the outcome of the (n+1)-th
`M21` of the cycle; `waits` counts `wait_for_instruction` calls. -/
def update (c : SDCard) (lines : List String) (probe : Nat → ProbeResult)
    (fresh : Nat) : Except PyErr CycleResult :=
  match construct_file_tree c lines fresh with
  | .error e => .error e
  | .ok b =>
    let new_tree := b.tree
    match updateBranch1 c new_tree (probe 0) with
    | .error e => .error e
    | .ok (c1, evs1, p1) =>
      match updateBranch2 c1 new_tree (probe p1) with
      | .error e => .error e
      | .ok (c2, evs2, p2) =>
        let c3 : SDCard := { c2 with file_tree := some new_tree }
        .ok { card := c3
              events := evs1 ++ evs2 ++
                [Event.updated new_tree.to_api_file_tree c3.sd_state]
              waits := b.waits + p1 + p2
              probes_run := p1 + p2
              listing_requested := b.listing_requested
              fresh := b.fresh }

/-! ### Concrete material for evaluation -/

/-- Build a tree directly from listing lines (the loop of
`construct_file_tree` without the request plumbing); used to name the
concrete trees of the examples below. -/
def buildTreeD (fresh : Nat) (lines : List String) : InternalFileTree :=
  match buildLines (newMountRoot fresh) lines (fresh + 1) with
  | .ok (t, _) => t
  | .error _ => newMountRoot fresh

/-- A probe whose every resolution reports the card present. -/
def probeAlwaysPresent : Nat → ProbeResult := fun _ => ProbeResult.resolved true

def cycleGet : Except PyErr CycleResult → CycleResult
  | .ok r => r
  | .error _ =>
    { card := SDCard.initial, events := [], waits := 0, probes_run := 0,
      listing_requested := false, fresh := 0 }

def buildOutGet : Except PyErr BuildOut → BuildOut
  | .ok b => b
  | .error _ =>
    { tree := newMountRoot 0, listing_requested := false, waits := 0,
      fresh := 0 }

/-! ### Helper lemmas about the state machine -/

theorem sd_state_changed_fields (c : SDCard) (ns : SDState) (c' : SDCard)
    (evs : List Event) (h : sd_state_changed c ns = Except.ok (c', evs)) :
    c'.sd_state = ns ∧ c'.expecting_insertion = c.expecting_insertion ∧
    c'.file_tree = c.file_tree := by
  unfold sd_state_changed at h
  split at h
  · cases hft : c.file_tree with
    | none => rw [hft] at h; cases h
    | some t => rw [hft] at h; cases h; exact ⟨rfl, rfl, rfl⟩
  · split at h <;> · cases h; exact ⟨rfl, rfl, rfl⟩

theorem sd_state_changed_inserted_iff (c : SDCard) (ns : SDState) (c' : SDCard)
    (evs : List Event) (h : sd_state_changed c ns = Except.ok (c', evs)) :
    (evs.any isInsertedEvent = true ↔
      (c.sd_state = SDState.INITIALISING ∧ ns = SDState.PRESENT)) := by
  unfold sd_state_changed at h
  split at h
  · rename_i hcond
    cases hft : c.file_tree with
    | none => rw [hft] at h; cases h
    | some t =>
      rw [hft] at h; cases h
      simp [isInsertedEvent, hcond.1, hcond.2]
  · rename_i hcond
    split at h <;> · cases h; simp [isInsertedEvent]; exact fun h1 h2 => hcond ⟨h1, h2⟩

theorem sd_state_changed_inserted_mem (c : SDCard) (ns : SDState) (c' : SDCard)
    (evs : List Event) (h : sd_state_changed c ns = Except.ok (c', evs))
    (root : String) (f : ApiFileTree) (hmem : Event.inserted root f ∈ evs) :
    root = "/" ∧ ∃ t, c.file_tree = some t ∧ f = t.to_api_file_tree := by
  unfold sd_state_changed at h
  split at h
  · cases hft : c.file_tree with
    | none => rw [hft] at h; cases h
    | some t =>
      rw [hft] at h; cases h
      simp only [List.mem_singleton, Event.inserted.injEq] at hmem
      exact ⟨hmem.1, t, rfl, hmem.2⟩
  · split at h <;> · cases h; simp at hmem

theorem sd_state_changed_ejected_filter (c : SDCard) (ns : SDState)
    (c' : SDCard) (evs : List Event)
    (h : sd_state_changed c ns = Except.ok (c', evs)) :
    evs.filter isEjectedEvent =
      (if c.sd_state = SDState.PRESENT ∧
          (ns = SDState.ABSENT ∨ ns = SDState.INITIALISING)
       then [Event.ejected "/"] else []) := by
  unfold sd_state_changed at h
  split at h
  · rename_i hcond
    cases hft : c.file_tree with
    | none => rw [hft] at h; cases h
    | some t =>
      rw [hft] at h; cases h
      rw [if_neg]
      · simp [isEjectedEvent]
      · rintro ⟨h1, _⟩; rw [hcond.1] at h1; cases h1
  · rename_i hcond1
    split at h
    · rename_i hcond
      cases h; rw [if_pos hcond]; simp [isEjectedEvent]
    · rename_i hcond
      cases h; rw [if_neg hcond]; simp

theorem decide_presence_fields (c : SDCard) (p : ProbeResult) (c' : SDCard)
    (evs : List Event) (h : decide_presence c p = Except.ok (c', evs)) :
    c'.file_tree = c.file_tree ∧
    (c'.sd_state = SDState.PRESENT →
      c.sd_state = SDState.PRESENT ∨ p = ProbeResult.resolved true) := by
  unfold decide_presence at h
  dsimp only at h
  split at h
  · cases h; exact ⟨rfl, fun hs => Or.inl hs⟩
  · rename_i present
    split at h
    · rename_i hp
      split at h
      · have := sd_state_changed_fields _ _ _ _ h
        exact ⟨this.2.2, fun _ => Or.inr (by rw [hp])⟩
      · cases h; exact ⟨rfl, fun _ => Or.inr (by rw [hp])⟩
    · have := sd_state_changed_fields _ _ _ _ h
      refine ⟨this.2.2, fun hs => ?_⟩
      rw [this.1] at hs; cases hs

theorem decide_presence_inserted_mem (c : SDCard) (p : ProbeResult)
    (c' : SDCard) (evs : List Event)
    (h : decide_presence c p = Except.ok (c', evs))
    (root : String) (f : ApiFileTree) (hmem : Event.inserted root f ∈ evs) :
    root = "/" ∧ ∃ t, c.file_tree = some t ∧ f = t.to_api_file_tree := by
  unfold decide_presence at h
  dsimp only at h
  split at h
  · cases h; simp at hmem
  · split at h
    · split at h
      · exact sd_state_changed_inserted_mem _ _ _ _ h root f hmem
      · cases h; simp at hmem
    · exact sd_state_changed_inserted_mem _ _ _ _ h root f hmem

theorem decide_presence_inserted_iff_aux (c : SDCard) (p : ProbeResult)
    (c' : SDCard) (evs : List Event)
    (h : decide_presence c p = Except.ok (c', evs))
    (hs : c.sd_state ≠ SDState.INITIALISING) :
    evs.any isInsertedEvent = false := by
  unfold decide_presence at h
  dsimp only at h
  split at h
  · cases h; rfl
  · split at h
    · split at h
      · have := sd_state_changed_inserted_iff _ _ _ _ h
        rw [Bool.eq_false_iff]
        intro hx
        exact hs ((this.mp hx).1)
      · cases h; rfl
    · have := sd_state_changed_inserted_iff _ _ _ _ h
      rw [Bool.eq_false_iff]
      intro hx
      exact absurd ((this.mp hx).2) (by simp)

theorem construct_file_tree_waits (c : SDCard) (lines : List String)
    (fresh : Nat) (b : BuildOut)
    (h : construct_file_tree c lines fresh = Except.ok b) : b.waits ≤ 1 := by
  unfold construct_file_tree at h
  dsimp only at h
  split at h
  · cases h; exact Nat.zero_le 1
  · split at h
    · cases h
    · cases h; exact Nat.le_refl 1

theorem updateBranch1_cases (c : SDCard) (nt : InternalFileTree)
    (p0 : ProbeResult) (c1 : SDCard) (evs : List Event) (k : Nat)
    (h : updateBranch1 c nt p0 = Except.ok (c1, evs, k)) :
    (k = 0 ∧ sd_state_changed c SDState.PRESENT = Except.ok (c1, evs) ∧
      (c.sd_state = SDState.INITIALISING ∨ c.sd_state = SDState.UNSURE) ∧
      nt.nonempty = true) ∨
    (k = 1 ∧ decide_presence c p0 = Except.ok (c1, evs) ∧
      (c.sd_state = SDState.INITIALISING ∨ c.sd_state = SDState.UNSURE) ∧
      nt.nonempty = false) ∨
    (k = 0 ∧ c1 = c ∧ evs = [] ∧
      ¬(c.sd_state = SDState.INITIALISING ∨ c.sd_state = SDState.UNSURE)) := by
  unfold updateBranch1 at h
  split at h
  · rename_i hcond
    split at h
    · rename_i hne
      split at h
      · cases h
      · rename_i c1' evs' heq
        cases h
        exact Or.inl ⟨rfl, heq, hcond, hne⟩
    · rename_i hne
      split at h
      · cases h
      · rename_i c1' evs' heq
        cases h
        exact Or.inr (Or.inl ⟨rfl, heq, hcond, Bool.eq_false_iff.mpr hne⟩)
  · rename_i hcond
    cases h
    exact Or.inr (Or.inr ⟨rfl, rfl, rfl, hcond⟩)

theorem updateBranch2_cases (c1 : SDCard) (nt : InternalFileTree)
    (pN : ProbeResult) (c2 : SDCard) (evs : List Event) (k : Nat)
    (h : updateBranch2 c1 nt pN = Except.ok (c2, evs, k)) :
    (k = 1 ∧ decide_presence c1 pN = Except.ok (c2, evs) ∧
      nt.nonempty = false ∧ c1.sd_state = SDState.PRESENT) ∨
    (k = 0 ∧ c2 = c1 ∧ evs = [] ∧
      ¬(nt.nonempty = false ∧ c1.sd_state = SDState.PRESENT)) := by
  unfold updateBranch2 at h
  split at h
  · rename_i hcond
    split at h
    · cases h
    · rename_i c2' evs' heq
      cases h
      exact Or.inl ⟨rfl, heq, hcond.1, hcond.2⟩
  · rename_i hcond
    cases h
    exact Or.inr ⟨rfl, rfl, rfl, hcond⟩

theorem updateBranch1_file_tree (c : SDCard) (nt : InternalFileTree)
    (p0 : ProbeResult) (c1 : SDCard) (evs : List Event) (k : Nat)
    (h : updateBranch1 c nt p0 = Except.ok (c1, evs, k)) :
    c1.file_tree = c.file_tree := by
  rcases updateBranch1_cases _ _ _ _ _ _ h with
    ⟨_, h1, _, _⟩ | ⟨_, h1, _, _⟩ | ⟨_, h1, _, _⟩
  · exact (sd_state_changed_fields _ _ _ _ h1).2.2
  · exact (decide_presence_fields _ _ _ _ h1).1
  · rw [h1]

theorem update_ok_destruct (c : SDCard) (lines : List String)
    (probe : Nat → ProbeResult) (fresh : Nat) (r : CycleResult)
    (h : update c lines probe fresh = Except.ok r) :
    ∃ b c1 evs1 p1 c2 evs2 p2,
      construct_file_tree c lines fresh = Except.ok b ∧
      updateBranch1 c b.tree (probe 0) = Except.ok (c1, evs1, p1) ∧
      updateBranch2 c1 b.tree (probe p1) = Except.ok (c2, evs2, p2) ∧
      r.card = { c2 with file_tree := some b.tree } ∧
      r.events = evs1 ++ evs2 ++
        [Event.updated b.tree.to_api_file_tree c2.sd_state] ∧
      r.waits = b.waits + p1 + p2 ∧ r.probes_run = p1 + p2 := by
  unfold update at h
  dsimp only at h
  split at h
  · cases h
  · rename_i b heqb
    split at h
    · cases h
    · rename_i c1 evs1 p1 heq1
      split at h
      · cases h
      · rename_i c2 evs2 p2 heq2
        cases h
        exact ⟨b, c1, evs1, p1, c2, evs2, p2, heqb, heq1, heq2,
          rfl, rfl, rfl, rfl⟩

/-- A node's converted form has no `children` exactly when its
`children_dict` is empty (`to_api_file_tree` turns an empty list into
`None`). -/
theorem to_api_children_none_iff (t : InternalFileTree) :
    (t.to_api_file_tree).children = none ↔ t.children_dict = [] := by
  cases t with
  | node i ty p r s d ti fp ds ch =>
    rw [InternalFileTree.to_api_file_tree]
    cases ch with
    | nil => simp [InternalFileTree.children_dict, ApiFileTree.children]
    | cons a l => simp [InternalFileTree.children_dict, ApiFileTree.children]

/-! ### Named concrete inputs used by the claim theorems -/

/-- Tree built from a listing with files `x` and `y`. -/
def treeXY : InternalFileTree := buildTreeD 0 ["x 100", "y 200"]

/-- Tree built (with disjoint object identities) from a listing with
files `y` and `z`; the `y` entries of the two trees have equal metadata
fingerprints but are distinct objects, exactly as in two trees built by
two different update cycles. -/
def treeYZ : InternalFileTree := buildTreeD 100 ["y 200", "z 300"]

/-- Two separately built trees each holding one file `x 100`: every
metadata fingerprint of one has an equal counterpart in the other. -/
def treeXa : InternalFileTree := buildTreeD 0 ["x 100"]

def treeXb : InternalFileTree := buildTreeD 10 ["x 100"]

def unsureCard : SDCard := ⟨SDState.UNSURE, false, none⟩

def presentCard : SDCard := ⟨SDState.PRESENT, false, none⟩

def absentCard : SDCard := ⟨SDState.ABSENT, false, none⟩

def initINICard : SDCard := ⟨SDState.INITIALISING, false, none⟩

/-- An SDCard in INITIALISING whose stored tree is a bare (empty) root,
as left behind by an earlier cycle. -/
def staleCard : SDCard := ⟨SDState.INITIALISING, false, some (newMountRoot 0)⟩

/-- A cycle of `staleCard` whose listing now reports the file `x`. -/
def staleRun : Except PyErr CycleResult :=
  update staleCard ["x 100"] probeAlwaysPresent 50

/-- The tree that cycle builds. -/
def staleNewTree : InternalFileTree := buildTreeD 50 ["x 100"]

/-- A first cycle from UNSURE with an empty listing whose probes resolve
present. -/
def threeWaitRun : Except PyErr CycleResult :=
  update unsureCard [] probeAlwaysPresent 0

/-- A first cycle from UNSURE whose listing reports the file `x`. -/
def unsureRun : Except PyErr CycleResult :=
  update unsureCard ["x 100"] probeAlwaysPresent 0

def unsureBuild : Except PyErr BuildOut :=
  construct_file_tree unsureCard ["x 100"] 0

/-! ### The claims -/

/-- C1.  The claim says `Diff(a, b)` computes `removed = a − b` and
`added = b − a`, so diffing a tree with files `{x, y}` against one with
files `{y, z}` reports `x` removed, `z` added, `y` in neither set.  The
code instead assigns `new_files` the same `a − b` expression as
`removed_files` (and compares by object identity): on those very trees
the added set equals the removed set, `/z` never appears among the added
paths, nothing is logged as removed or created, and both `/x` and `/y`
are logged as "changed". -/
theorem diff_misreports_on_xy_yz :
    (treeXY.diff treeYZ).new_files = (treeXY.diff treeYZ).removed_files ∧
    ((treeXY.diff treeYZ).new_files.map DescEntry.full_path).contains "/z"
      = false ∧
    (treeXY.diff treeYZ).logged_removed = [] ∧
    (treeXY.diff treeYZ).logged_created = [] ∧
    (treeXY.diff treeYZ).logged_changed = ["/x", "/y"] := by decide

/-- C2.  The claim says two file nodes with identical metadata
fingerprints are treated as the same element by the diff's set
differences (one in each tree cancels out of both).  In the code set
membership uses the default identity `__eq__` (`__hash__` alone does not
change equality), so two separately built trees each holding one file
`x 100` — fingerprint-identical descendant sets — still produce
singleton difference sets in both directions instead of empty ones. -/
theorem diff_membership_is_object_identity :
    treeXa.descendants_set.map fingerprint
      = treeXb.descendants_set.map fingerprint ∧
    (treeXa.diff treeXb).removed_files.length = 1 ∧
    (treeXb.diff treeXa).removed_files.length = 1 := by decide

/-- C3, counterexample.  A cycle that starts in UNSURE with an empty
listing and whose probe resolutions report the card present performs
three blocking waits (one listing wait plus two probe waits) and runs
the probe twice — the claim's "at most two blocking waits / probe at
most once per cycle" fails on exactly the scenario it names. -/
theorem update_three_waits :
    (cycleGet threeWaitRun).waits = 3 ∧
    (cycleGet threeWaitRun).probes_run = 2 ∧
    threeWaitRun = Except.ok (cycleGet threeWaitRun) := ⟨rfl, rfl, rfl⟩

/-- C3, amended.  Every successfully completing update cycle performs at
most three blocking waits and runs the presence probe at most twice;
when the probe runs twice the cycle necessarily started in UNSURE or
INITIALISING and its first probe resolved reporting the card present. -/
theorem update_waits_bounded (c : SDCard) (lines : List String)
    (probe : Nat → ProbeResult) (fresh : Nat) (r : CycleResult)
    (h : update c lines probe fresh = Except.ok r) :
    r.waits ≤ 3 ∧ r.probes_run ≤ 2 ∧
    (r.probes_run = 2 →
      (c.sd_state = SDState.UNSURE ∨ c.sd_state = SDState.INITIALISING) ∧
      probe 0 = ProbeResult.resolved true) := by
  obtain ⟨b, c1, evs1, p1, c2, evs2, p2, hb, h1, h2, hcard, hevents, hw, hp⟩ :=
    update_ok_destruct _ _ _ _ _ h
  have hbw : b.waits ≤ 1 := construct_file_tree_waits _ _ _ _ hb
  have hp1 : p1 = 0 ∨ (p1 = 1 ∧
      decide_presence c (probe 0) = Except.ok (c1, evs1) ∧
      (c.sd_state = SDState.INITIALISING ∨ c.sd_state = SDState.UNSURE)) := by
    rcases updateBranch1_cases _ _ _ _ _ _ h1 with
      ⟨h0, _, _, _⟩ | ⟨h0, hdp, hcond, _⟩ | ⟨h0, _, _, _⟩
    · exact Or.inl h0
    · exact Or.inr ⟨h0, hdp, hcond⟩
    · exact Or.inl h0
  have hp2 : p2 = 0 ∨ (p2 = 1 ∧ c1.sd_state = SDState.PRESENT) := by
    rcases updateBranch2_cases _ _ _ _ _ _ h2 with
      ⟨h0, _, _, hpres⟩ | ⟨h0, _, _, _⟩
    · exact Or.inr ⟨h0, hpres⟩
    · exact Or.inl h0
  refine ⟨?_, ?_, ?_⟩
  · rw [hw]
    rcases hp1 with h0 | ⟨h0, _, _⟩ <;> rcases hp2 with h0' | ⟨h0', _⟩ <;> omega
  · rw [hp]
    rcases hp1 with h0 | ⟨h0, _, _⟩ <;> rcases hp2 with h0' | ⟨h0', _⟩ <;> omega
  · intro h2eq
    rw [hp] at h2eq
    rcases hp1 with h0 | ⟨h0, hdp, hcond⟩
    · rcases hp2 with h0' | ⟨h0', _⟩ <;> omega
    · rcases hp2 with h0' | ⟨h0', hpres⟩
      · omega
      · have hcnp : c.sd_state ≠ SDState.PRESENT := by
          rcases hcond with hc | hc <;> rw [hc] <;> simp
        rcases (decide_presence_fields _ _ _ _ hdp).2 hpres with hcp | hprobe
        · exact absurd hcp hcnp
        · exact ⟨hcond.symm, hprobe⟩

theorem update_waits_bounded_witness :
    (cycleGet threeWaitRun).waits ≤ 3 ∧
    (cycleGet threeWaitRun).probes_run ≤ 2 :=
  ⟨(update_waits_bounded unsureCard [] probeAlwaysPresent 0
      (cycleGet threeWaitRun) rfl).1,
   (update_waits_bounded unsureCard [] probeAlwaysPresent 0
      (cycleGet threeWaitRun) rfl).2.1⟩

/-- C4, counterexample.  A cycle of `staleCard` (INITIALISING, stored
tree = bare empty root) whose listing reports file `x` takes the
INITIALISING→PRESENT transition, but the emitted inserted payload is the
conversion of the *previously stored* empty tree, not of the newly built
one: the payload has no children while the new tree's conversion has
some, so the two conversions differ. -/
theorem inserted_event_carries_stale_tree :
    (cycleGet staleRun).events =
      [Event.inserted "/" ((newMountRoot 0).to_api_file_tree),
       Event.updated (staleNewTree.to_api_file_tree) SDState.PRESENT] ∧
    ((newMountRoot 0).to_api_file_tree).children = none ∧
    (staleNewTree.to_api_file_tree).children ≠ none ∧
    (newMountRoot 0).to_api_file_tree ≠ staleNewTree.to_api_file_tree := by
  have h2 : ((newMountRoot 0).to_api_file_tree).children = none :=
    (to_api_children_none_iff _).mpr rfl
  have h3 : (staleNewTree.to_api_file_tree).children ≠ none := by
    intro hx
    have := (to_api_children_none_iff staleNewTree).mp hx
    rw [show staleNewTree.children_dict = [mkFileNode 51 "x" 100 "/x"]
      from rfl] at this
    exact List.noConfusion this
  refine ⟨rfl, h2, h3, fun hx => h3 ?_⟩
  rw [← hx]
  exact h2

/-- C4, amended.  Every inserted event emitted during a cycle carries
root "/" and the conversion of the tree stored by the previous cycle
(`self.file_tree` at entry), not of the newly built one — the new tree is
stored only after the transition. -/
theorem inserted_payload_is_previous_tree (c : SDCard)
    (t : InternalFileTree) (lines : List String) (probe : Nat → ProbeResult)
    (fresh : Nat) (r : CycleResult) (hft : c.file_tree = some t)
    (h : update c lines probe fresh = Except.ok r) :
    ∀ root f, Event.inserted root f ∈ r.events →
      root = "/" ∧ f = t.to_api_file_tree := by
  obtain ⟨b, c1, evs1, p1, c2, evs2, p2, hb, h1, h2, hcard, hevents, hw, hp⟩ :=
    update_ok_destruct _ _ _ _ _ h
  intro root f hmem
  rw [hevents] at hmem
  simp only [List.mem_append, List.mem_singleton] at hmem
  rcases hmem with (hmem | hmem) | hmem
  · rcases updateBranch1_cases _ _ _ _ _ _ h1 with
      ⟨_, hsc, _, _⟩ | ⟨_, hdp, _, _⟩ | ⟨_, _, hevs, _⟩
    · obtain ⟨hr, t', hft', hfeq⟩ :=
        sd_state_changed_inserted_mem _ _ _ _ hsc root f hmem
      rw [hft] at hft'
      injection hft' with ht
      subst ht
      exact ⟨hr, hfeq⟩
    · obtain ⟨hr, t', hft', hfeq⟩ :=
        decide_presence_inserted_mem _ _ _ _ hdp root f hmem
      rw [hft] at hft'
      injection hft' with ht
      subst ht
      exact ⟨hr, hfeq⟩
    · rw [hevs] at hmem
      cases hmem
  · have hft1 : c1.file_tree = c.file_tree :=
      updateBranch1_file_tree _ _ _ _ _ _ h1
    rcases updateBranch2_cases _ _ _ _ _ _ h2 with
      ⟨_, hdp, _, _⟩ | ⟨_, _, hevs, _⟩
    · obtain ⟨hr, t', hft', hfeq⟩ :=
        decide_presence_inserted_mem _ _ _ _ hdp root f hmem
      rw [hft1, hft] at hft'
      injection hft' with ht
      subst ht
      exact ⟨hr, hfeq⟩
    · rw [hevs] at hmem
      cases hmem
  · exact Event.noConfusion hmem

theorem inserted_payload_is_previous_tree_witness :
    "/" = "/" ∧
    (newMountRoot 0).to_api_file_tree = (newMountRoot 0).to_api_file_tree :=
  inserted_payload_is_previous_tree staleCard (newMountRoot 0) ["x 100"]
    probeAlwaysPresent 50 (cycleGet staleRun) rfl rfl "/"
    ((newMountRoot 0).to_api_file_tree)
    (by
      rw [show (cycleGet staleRun).events =
        [Event.inserted "/" ((newMountRoot 0).to_api_file_tree),
         Event.updated (staleNewTree.to_api_file_tree) SDState.PRESENT]
        from rfl]
      exact List.mem_cons_self _ _)

/-- C5.  An inserted event is emitted by a transition exactly when it is
INITIALISING→PRESENT; and a cycle starting at UNSURE whose built tree is
non-empty ends in PRESENT having emitted no inserted event. -/
theorem inserted_only_on_initialising_to_present :
    (∀ c ns c' evs, sd_state_changed c ns = Except.ok (c', evs) →
      (evs.any isInsertedEvent = true ↔
        (c.sd_state = SDState.INITIALISING ∧ ns = SDState.PRESENT))) ∧
    (∀ c lines probe fresh b r, c.sd_state = SDState.UNSURE →
      construct_file_tree c lines fresh = Except.ok b →
      b.tree.nonempty = true →
      update c lines probe fresh = Except.ok r →
      r.card.sd_state = SDState.PRESENT ∧
      r.events.any isInsertedEvent = false) := by
  constructor
  · exact sd_state_changed_inserted_iff
  · intro c lines probe fresh b r hU hcon hne hupd
    obtain ⟨b', c1, evs1, p1, c2, evs2, p2, hb, h1, h2, hcard, hevents, hw, hp⟩ :=
      update_ok_destruct _ _ _ _ _ hupd
    rw [hcon] at hb
    injection hb with hb
    subst hb
    rcases updateBranch1_cases _ _ _ _ _ _ h1 with
      ⟨_, hsc, _, _⟩ | ⟨_, _, _, hne'⟩ | ⟨_, _, _, hnc⟩
    · have hfields := sd_state_changed_fields _ _ _ _ hsc
      have hany1 : evs1.any isInsertedEvent = false := by
        rw [Bool.eq_false_iff]
        intro hx
        have := (sd_state_changed_inserted_iff _ _ _ _ hsc).mp hx
        rw [hU] at this
        exact SDState.noConfusion this.1
      rcases updateBranch2_cases _ _ _ _ _ _ h2 with
        ⟨_, _, hne'', _⟩ | ⟨_, hc2, hevs2, _⟩
      · rw [hne] at hne''
        exact Bool.noConfusion hne''
      · constructor
        · rw [hcard]
          show c2.sd_state = SDState.PRESENT
          rw [hc2]
          exact hfields.1
        · rw [hevents, hevs2]
          simp only [List.any_append, hany1]
          rfl
    · rw [hne] at hne'
      exact Bool.noConfusion hne'
    · exact absurd (Or.inr hU) hnc

theorem inserted_only_on_initialising_to_present_witness :
    ([Event.inserted "/" ((newMountRoot 0).to_api_file_tree)].any
      isInsertedEvent = true) ∧
    ((cycleGet unsureRun).card.sd_state = SDState.PRESENT ∧
     (cycleGet unsureRun).events.any isInsertedEvent = false) :=
  ⟨(inserted_only_on_initialising_to_present.1 staleCard SDState.PRESENT
      ⟨SDState.PRESENT, false, some (newMountRoot 0)⟩
      [Event.inserted "/" ((newMountRoot 0).to_api_file_tree)] rfl).mpr
      ⟨rfl, rfl⟩,
   inserted_only_on_initialising_to_present.2 unsureCard ["x 100"]
     probeAlwaysPresent 0 (buildOutGet unsureBuild) (cycleGet unsureRun)
     rfl rfl rfl rfl⟩

/-- C6.  A transition emits an ejected event (payload root "/") exactly
when it leaves PRESENT for ABSENT or INITIALISING — and then exactly one;
in particular an unsolicited insertion notification received in PRESENT
with the guard clear forces INITIALISING and fires exactly one ejected
event. -/
theorem ejected_exactly_on_present_exit :
    (∀ c ns c' evs, sd_state_changed c ns = Except.ok (c', evs) →
      evs.filter isEjectedEvent =
        (if c.sd_state = SDState.PRESENT ∧
            (ns = SDState.ABSENT ∨ ns = SDState.INITIALISING)
         then [Event.ejected "/"] else [])) ∧
    (∀ c, c.expecting_insertion = false → c.sd_state = SDState.PRESENT →
      sd_inserted c =
        Except.ok ({ c with sd_state := SDState.INITIALISING },
          [Event.ejected "/"])) := by
  constructor
  · exact sd_state_changed_ejected_filter
  · intro c hexp hpres
    unfold sd_inserted
    rw [if_neg (by rw [hexp]; exact Bool.false_ne_true)]
    unfold sd_state_changed
    rw [if_neg (by rintro ⟨_, hx⟩; exact SDState.noConfusion hx)]
    rw [if_pos ⟨hpres, Or.inr rfl⟩]

theorem ejected_exactly_on_present_exit_witness :
    ([Event.ejected "/"].filter isEjectedEvent =
      (if presentCard.sd_state = SDState.PRESENT ∧
          (SDState.ABSENT = SDState.ABSENT ∨
           SDState.ABSENT = SDState.INITIALISING)
       then [Event.ejected "/"] else [])) ∧
    sd_inserted presentCard =
      Except.ok ({ presentCard with sd_state := SDState.INITIALISING },
        [Event.ejected "/"]) :=
  ⟨ejected_exactly_on_present_exit.1 presentCard SDState.ABSENT
      ⟨SDState.ABSENT, false, none⟩ [Event.ejected "/"] rfl,
   ejected_exactly_on_present_exit.2 presentCard rfl rfl⟩

/-- C7.  `sd_inserted` with the guard set clears the guard and changes
nothing else (no transition, no event); with the guard clear it moves the
state to INITIALISING whatever it was (emitting the ejected event exactly
when it was PRESENT). -/
theorem sd_inserted_guard_behaviour (c : SDCard) :
    (c.expecting_insertion = true →
      sd_inserted c = Except.ok ({ c with expecting_insertion := false }, [])) ∧
    (c.expecting_insertion = false →
      sd_inserted c =
        Except.ok ({ c with sd_state := SDState.INITIALISING },
          if c.sd_state = SDState.PRESENT then [Event.ejected "/"] else [])) := by
  constructor
  · intro hexp
    unfold sd_inserted
    rw [if_pos hexp]
  · intro hexp
    unfold sd_inserted
    rw [if_neg (by rw [hexp]; exact Bool.false_ne_true)]
    unfold sd_state_changed
    rw [if_neg (by rintro ⟨_, hx⟩; exact SDState.noConfusion hx)]
    by_cases hpres : c.sd_state = SDState.PRESENT
    · rw [if_pos ⟨hpres, Or.inr rfl⟩, if_pos hpres]
    · rw [if_neg (by rintro ⟨hx, _⟩; exact hpres hx), if_neg hpres]

theorem sd_inserted_guard_behaviour_witness :
    (sd_inserted ⟨SDState.PRESENT, true, none⟩ =
      Except.ok (⟨SDState.PRESENT, false, none⟩, [])) ∧
    (sd_inserted presentCard =
      Except.ok (⟨SDState.INITIALISING, false, none⟩,
        if presentCard.sd_state = SDState.PRESENT
        then [Event.ejected "/"] else [])) :=
  ⟨(sd_inserted_guard_behaviour ⟨SDState.PRESENT, true, none⟩).1 rfl,
   (sd_inserted_guard_behaviour presentCard).2 rfl⟩

/-- C8.  An unresolved probe (`is_confirmed()` false) leaves the SD state
exactly as it was, whatever it was, and emits nothing — `decide_presence`
only logs (the net effect on the card is clearing the probe guard it set
itself). -/
theorem decide_presence_unresolved_keeps_state (c : SDCard) :
    decide_presence c ProbeResult.unresolved =
      Except.ok ({ c with expecting_insertion := false }, []) ∧
    ({ c with expecting_insertion := false } : SDCard).sd_state = c.sd_state :=
  ⟨rfl, rfl⟩

/-- C9.  With the state ABSENT, `construct_file_tree` issues no `M20`
listing request, performs no blocking wait, and returns the bare MOUNT
root, whose descendants set (and children dict) is empty. -/
theorem construct_absent_no_listing (c : SDCard) (lines : List String)
    (fresh : Nat) (h : c.sd_state = SDState.ABSENT) :
    construct_file_tree c lines fresh =
      Except.ok { tree := newMountRoot fresh, listing_requested := false,
                  waits := 0, fresh := fresh + 1 } ∧
    (newMountRoot fresh).type = FileType.MOUNT ∧
    (newMountRoot fresh).descendants_set = [] ∧
    (newMountRoot fresh).children_dict = [] ∧
    (newMountRoot fresh).nonempty = false := by
  refine ⟨?_, rfl, rfl, rfl, rfl⟩
  unfold construct_file_tree
  rw [if_pos h]

theorem construct_absent_no_listing_witness :
    construct_file_tree absentCard ["x 100"] 7 =
      Except.ok { tree := newMountRoot 7, listing_requested := false,
                  waits := 0, fresh := 8 } ∧
    (newMountRoot 7).type = FileType.MOUNT ∧
    (newMountRoot 7).descendants_set = [] ∧
    (newMountRoot 7).children_dict = [] ∧
    (newMountRoot 7).nonempty = false :=
  construct_absent_no_listing absentCard ["x 100"] 7 rfl

/-- C10.  `__init__` leaves `file_tree` unset and `_update` assigns it
only at the end of a cycle; `sd_inserted` before the first cycle moves
the fresh machine to INITIALISING with `file_tree` still unset, and a
first cycle from that situation whose probe confirms presence dies with
`AttributeError` inside the INITIALISING→PRESENT branch instead of
emitting the inserted event. -/
theorem first_cycle_inserted_attribute_error :
    (sd_inserted SDCard.initial =
       Except.ok ({ SDCard.initial with sd_state := SDState.INITIALISING },
         []) ∧
     ({ SDCard.initial with sd_state := SDState.INITIALISING } :
        SDCard).file_tree = none) ∧
    (∀ c probe fresh, c.sd_state = SDState.INITIALISING →
      c.file_tree = none → probe 0 = ProbeResult.resolved true →
      update c [] probe fresh = Except.error PyErr.attributeError) := by
  refine ⟨⟨rfl, rfl⟩, ?_⟩
  intro c probe fresh hs hft hprobe
  have hcon : construct_file_tree c [] fresh =
      Except.ok { tree := newMountRoot fresh, listing_requested := true,
                  waits := 1, fresh := fresh + 1 } := by
    simp [construct_file_tree, hs, buildLines]
  have hdp : decide_presence c (ProbeResult.resolved true) =
      Except.error PyErr.attributeError := by
    simp [decide_presence, sd_state_changed, hs, hft]
  have hb1 : updateBranch1 c (newMountRoot fresh) (probe 0) =
      Except.error PyErr.attributeError := by
    simp [updateBranch1, hs, hprobe, hdp, InternalFileTree.nonempty,
      newMountRoot, InternalFileTree.descendants_set]
  unfold update
  rw [hcon]
  dsimp only
  rw [hb1]

theorem first_cycle_inserted_attribute_error_witness :
    update initINICard [] probeAlwaysPresent 0 =
      Except.error PyErr.attributeError :=
  first_cycle_inserted_attribute_error.2 initINICard probeAlwaysPresent 0
    rfl rfl rfl

end OldBuddy
